import Mathlib

/-!
Verification of the cb_core task-oriented dialog toolkit: a shallow embedding
of the intent/slot dialog-state engine, the dialog memory, the intent
classifier output parsing, and the paginated-retrieval-with-cache tool
framework (builder_package/core), with theorems about pagination, caching,
tool-result construction, error classification, query validation, memory
windowing, classifier parsing and slot-state monotonicity.
-/

namespace CbCore

/-! ## JSON values (shallow model of Python dict/list/str/int/None values) -/

inductive JVal where
  | null : JVal
  | str (s : String) : JVal
  | num (n : Int) : JVal
  | bool (b : Bool) : JVal
  | arr (elems : List JVal) : JVal
  | obj (fields : List (String × JVal)) : JVal
deriving Repr

/-- Association-list lookup, modelling Python dict access (keys are unique in
a dict, so first match is the value). -/
def alookup {κ V : Type} [DecidableEq κ] : List (κ × V) → κ → Option V
  | [], _ => none
  | (k, v) :: rest, key => if k = key then some v else alookup rest key

/-- Python dict assignment d[k] = v: overwrite in place if the key exists,
append at the end (insertion order) otherwise. -/
def updAssoc {κ V : Type} [DecidableEq κ] (d : List (κ × V)) (kv : κ × V) :
    List (κ × V) :=
  if d.any (fun p => decide (p.1 = kv.1)) then
    d.map (fun p => if p.1 = kv.1 then kv else p)
  else d ++ [kv]

/-- Python dict.update: apply the entries of upd left to right. -/
def dictUpdate {κ V : Type} [DecidableEq κ] (d upd : List (κ × V)) :
    List (κ × V) :=
  upd.foldl updAssoc d

/-- Contiguous-sublist test on lists of characters. -/
def charsInfix (needle : List Char) : List Char → Bool
  | [] => needle.isEmpty
  | c :: rest => needle.isPrefixOf (c :: rest) || charsInfix needle rest

/-- Python substring test, needle in hay. -/
def strContains (needle hay : String) : Bool :=
  charsInfix needle.toList hay.toList

/-- Python str.lower(), as a character-wise case mapping. -/
def pyLower (s : String) : String := ⟨s.data.map Char.toLower⟩

/-- Python str.upper(), as a character-wise case mapping. -/
def pyUpper (s : String) : String := ⟨s.data.map Char.toUpper⟩

/-! ## ToolCallResult (itool_call.py) -/

structure ToolCallResult where
  status : Option String
  tool_name : Option String
  error_type : Option String
  error_message : Option String
  status_code : Option Nat
  file_name : Option String
  data : Option JVal
  sample : Option JVal
deriving Repr

/-- ToolCallResult.__init__: every field starts as None. -/
def ToolCallResult.init : ToolCallResult :=
  ⟨none, none, none, none, none, none, none, none⟩

/-- ToolCallResult.success: named constructor for the success variant;
raises (modelled as Except.error) when both or neither of data/sample are
provided. -/
def ToolCallResult.success (tool_name file_name : String)
    (data sample : Option JVal) : Except String ToolCallResult :=
  match data, sample with
  | some _, some _ => .error "data and sample cannot be provided together"
  | some d, none =>
      .ok { ToolCallResult.init with
              status := some "success", tool_name := some tool_name,
              file_name := some file_name, data := some d }
  | none, some s =>
      .ok { ToolCallResult.init with
              status := some "success", tool_name := some tool_name,
              file_name := some file_name, sample := some s }
  | none, none => .error "data or sample must be provided"

/-- ToolCallResult.error: named constructor for the error variant. -/
def ToolCallResult.error (tool_name error_type error_message : String)
    (status_code : Option Nat) : ToolCallResult :=
  { ToolCallResult.init with
      status := some "error", tool_name := some tool_name,
      error_type := some error_type, error_message := some error_message,
      status_code := status_code }

/-- A Python value that is a string, or None rendered as JSON null. -/
def jOfOptStr : Option String → JVal
  | some s => .str s
  | none => .null

/-- A Python value that is an int, or None rendered as JSON null. -/
def jOfOptNat : Option Nat → JVal
  | some n => .num n
  | none => .null

/-- ToolCallResult.to_dict_wo_content: envelope with status, tool_name and
the variant-specific content dict. -/
def ToolCallResult.to_dict_wo_content (r : ToolCallResult) :
    Except String JVal :=
  match r.status with
  | none => .error "Tool call result is not set"
  | some st =>
    if st = "success" then
      .ok (.obj [("status", .str st), ("tool_name", jOfOptStr r.tool_name),
                 ("content", .obj [("file_name", jOfOptStr r.file_name)])])
    else if st = "error" then
      .ok (.obj [("status", .str st), ("tool_name", jOfOptStr r.tool_name),
                 ("content", .obj
                   [("error_type", jOfOptStr r.error_type),
                    ("error_message", jOfOptStr r.error_message),
                    ("status_code", jOfOptNat r.status_code)])])
    else .error "status must be success or error"

/-- Python nested dict assignment j[outer][k] = v. -/
def jSetIn (j : JVal) (outer k : String) (v : JVal) : JVal :=
  match j with
  | .obj fields =>
      .obj (fields.map (fun p =>
        if p.1 = outer then
          (p.1, match p.2 with
                | .obj inner => JVal.obj (updAssoc inner (k, v))
                | o => o)
        else p))
  | o => o

/-- ToolCallResult.to_dict: the envelope, with data or sample added to the
content on the success path; raises when a success result carries neither. -/
def ToolCallResult.to_dict (r : ToolCallResult) : Except String JVal :=
  match r.to_dict_wo_content with
  | .error e => .error e
  | .ok base =>
    if r.status = some "success" then
      match r.data, r.sample with
      | some d, _ => .ok (jSetIn base "content" "data" d)
      | none, some s => .ok (jSetIn base "content" "sample" s)
      | none, none => .error "data or sample must be provided"
    else .ok base

/-! ## Enums (enums.py, sgd_dialog_state.py) -/

inductive SlotName where
  | LOCATION | CHECK_IN | CHECK_OUT | GUESTS | PRICE_RANGE | PARKING
  | HOTEL_NAME | HOTEL_ADDRESS | HOTEL_PRICE | HOTEL_RATING
  | HOTEL_AMENITIES | HOTEL_POLICIES | HOTEL_IMAGES | HOTEL_REVIEWS
  | HOTEL_AVAILABILITY | HOTEL_BOOKINGS
  | BOOKING_ID | BOOKING_TIME | BOOKING_STATUS | BOOKING_CONFIRMATION
  | BOOKING_CANCELLATION_REASON
deriving DecidableEq, Repr

/-- SlotName member values, in declaration order. -/
def SlotName.value : SlotName → String
  | .LOCATION => "location"
  | .CHECK_IN => "check_in"
  | .CHECK_OUT => "check_out"
  | .GUESTS => "guests"
  | .PRICE_RANGE => "price_range"
  | .PARKING => "parking"
  | .HOTEL_NAME => "hotel_name"
  | .HOTEL_ADDRESS => "hotel_address"
  | .HOTEL_PRICE => "hotel_price"
  | .HOTEL_RATING => "hotel_rating"
  | .HOTEL_AMENITIES => "hotel_amenities"
  | .HOTEL_POLICIES => "hotel_policies"
  | .HOTEL_IMAGES => "hotel_images"
  | .HOTEL_REVIEWS => "hotel_reviews"
  | .HOTEL_AVAILABILITY => "hotel_availability"
  | .HOTEL_BOOKINGS => "hotel_bookings"
  | .BOOKING_ID => "booking_id"
  | .BOOKING_TIME => "booking_time"
  | .BOOKING_STATUS => "booking_status"
  | .BOOKING_CONFIRMATION => "booking_confirmation"
  | .BOOKING_CANCELLATION_REASON => "cancellation_reason"

/-- Iteration order of the SlotName enum. -/
def slotNameMembers : List SlotName :=
  [.LOCATION, .CHECK_IN, .CHECK_OUT, .GUESTS, .PRICE_RANGE, .PARKING,
   .HOTEL_NAME, .HOTEL_ADDRESS, .HOTEL_PRICE, .HOTEL_RATING,
   .HOTEL_AMENITIES, .HOTEL_POLICIES, .HOTEL_IMAGES, .HOTEL_REVIEWS,
   .HOTEL_AVAILABILITY, .HOTEL_BOOKINGS,
   .BOOKING_ID, .BOOKING_TIME, .BOOKING_STATUS, .BOOKING_CONFIRMATION,
   .BOOKING_CANCELLATION_REASON]

inductive IntentName where
  | SEARCH_HOTELS | GET_LISTING_DETAILS | BOOK_LISTING | GET_BOOKING
  | CANCEL_BOOKING | AGENT_BUILDING | RETRIEVER_BUILDING | QB | OTHER
deriving DecidableEq, Repr

/-- IntentName member values. -/
def IntentName.value : IntentName → String
  | .SEARCH_HOTELS => "search_hotels"
  | .GET_LISTING_DETAILS => "get_listing_details"
  | .BOOK_LISTING => "book_listing"
  | .GET_BOOKING => "get_booking"
  | .CANCEL_BOOKING => "cancel_booking"
  | .AGENT_BUILDING => "agent_building"
  | .RETRIEVER_BUILDING => "retriever_building"
  | .QB => "qb"
  | .OTHER => "other"

/-- Iteration order of the IntentName enum. -/
def intentNameMembers : List IntentName :=
  [.SEARCH_HOTELS, .GET_LISTING_DETAILS, .BOOK_LISTING, .GET_BOOKING,
   .CANCEL_BOOKING, .AGENT_BUILDING, .RETRIEVER_BUILDING, .QB, .OTHER]

inductive SGDUserDialogAct where
  | INFORM_INTENT | NEGATE_INTENT | AFFIRM_INTENT | INFORM | REQUEST
  | AFFIRM | NEGATE | SELECT | REQUEST_ALTS | THANK_YOU | GOODBYE | GREETING
deriving DecidableEq, Repr

/-- SGDUserDialogAct member names (the value string equals the name). -/
def SGDUserDialogAct.actName : SGDUserDialogAct → String
  | .INFORM_INTENT => "INFORM_INTENT"
  | .NEGATE_INTENT => "NEGATE_INTENT"
  | .AFFIRM_INTENT => "AFFIRM_INTENT"
  | .INFORM => "INFORM"
  | .REQUEST => "REQUEST"
  | .AFFIRM => "AFFIRM"
  | .NEGATE => "NEGATE"
  | .SELECT => "SELECT"
  | .REQUEST_ALTS => "REQUEST_ALTS"
  | .THANK_YOU => "THANK_YOU"
  | .GOODBYE => "GOODBYE"
  | .GREETING => "GREETING"

/-- In the source enum the member value string equals the member name. -/
def SGDUserDialogAct.value (a : SGDUserDialogAct) : String := a.actName

/-- Iteration order of the SGDUserDialogAct enum. -/
def sgdUserDialogActMembers : List SGDUserDialogAct :=
  [.INFORM_INTENT, .NEGATE_INTENT, .AFFIRM_INTENT, .INFORM, .REQUEST,
   .AFFIRM, .NEGATE, .SELECT, .REQUEST_ALTS, .THANK_YOU, .GOODBYE, .GREETING]

/-! ## Messages and short-term memory (structs.py, memory.py) -/

structure TMessage where
  role : String
  content : String
  intent : Option IntentName
  timestamp : Int
  slots : List (SlotName × JVal)
deriving Repr

structure STMemory where
  user_id : String
  conversation_history : List TMessage
  slots : List (SlotName × JVal)
deriving Repr

/-- STMemory.add_message: append to history, then dict-update the slot map
with the message slots (last-write-wins). -/
def STMemory.add_message (mem : STMemory) (message : TMessage) : STMemory :=
  { mem with
      conversation_history := mem.conversation_history ++ [message],
      slots := dictUpdate mem.slots message.slots }

/-- The chronological role-prefixed transcript joined with newlines, as
produced by conversation_summary and the slicing helpers. -/
def summaryLines (h : List TMessage) : String :=
  String.intercalate "\n" (h.map (fun m => m.role ++ ": " ++ m.content))

/-- STMemory.conversation_summary. -/
def STMemory.conversation_summary (mem : STMemory) : String :=
  summaryLines mem.conversation_history

/-- Index of the last message with the given role: the backward scan of
last_user_turn, and of the bot-message scan inside
conversation_history_before_last_user_turn. -/
def lastIdxWithRole (role : String) : List TMessage → Option Nat
  | [] => none
  | m :: rest =>
    match lastIdxWithRole role rest with
    | some j => some (j + 1)
    | none => if m.role = role then some 0 else none

/-- STMemory.last_user_turn_index: backward scan for role user, -1 when no
user turn exists. -/
def STMemory.last_user_turn_index (mem : STMemory) : Int :=
  match lastIdxWithRole "user" mem.conversation_history with
  | some j => (j : Int)
  | none => -1

/-- STMemory.conversation_history_before_last_user_turn, translated from the
source: empty string when the last user index is at most 0; otherwise the
transcript up to and including the last bot message before the last user
turn, or up to just before the last user turn when no bot message precedes
it. -/
def STMemory.conversation_history_before_last_user_turn (mem : STMemory) :
    String :=
  let lastUserIdx := mem.last_user_turn_index
  if lastUserIdx ≤ 0 then ""
  else
    match lastIdxWithRole "bot"
        (mem.conversation_history.take lastUserIdx.toNat) with
    | some j => summaryLines (mem.conversation_history.take (j + 1))
    | none => summaryLines (mem.conversation_history.take lastUserIdx.toNat)

/-- Modelled from the spec wording for the same operation, to be compared
with the translation from the source: the summary of all messages up to and
including the most recent bot message that precedes the last user turn; all
messages strictly before the last user turn when no such bot message exists;
empty when there is no user turn. -/
def historyBeforeLastUserTurnSpec (h : List TMessage) : String :=
  match lastIdxWithRole "user" h with
  | none => ""
  | some u =>
    match lastIdxWithRole "bot" (h.take u) with
    | some j => summaryLines (h.take (j + 1))
    | none => summaryLines (h.take u)

/-! ## Intent classifier output parsing (intent_classifier.py) -/

/-- IntentClassifierOutputParser.search_for_intent: first enum member whose
value matches the parsed string case-insensitively, None when unknown. -/
def search_for_intent (parsed_intent : String) : Option IntentName :=
  intentNameMembers.find?
    (fun i => pyLower i.value == pyLower parsed_intent)

/-- IntentClassifierOutputParser.search_for_dialog_act: matches the parsed
string case-insensitively against member value or member name. -/
def search_for_dialog_act (parsed_dialog_act : String) :
    Option SGDUserDialogAct :=
  sgdUserDialogActMembers.find?
    (fun a => pyLower a.value == pyLower parsed_dialog_act
      || pyLower a.actName == pyLower parsed_dialog_act)

/-- IntentClassifierOutputParser.search_for_slot: first slot whose value
matches case-insensitively. -/
def search_for_slot (parsed_slot : String) : Option SlotName :=
  slotNameMembers.find?
    (fun s => pyLower s.value == pyLower parsed_slot)

/-- Parser state of IntentClassifierOutputParser. The intents field keeps
the Python distinction between a list and None; __init__ sets it to an empty
list, never to None. -/
structure IntentClassifierOutputState where
  intents : Option (List IntentName)
  dialog_acts : List SGDUserDialogAct
  slots : List (SlotName × JVal)
  error_reason : Option String
deriving Repr

/-- IntentClassifierOutputParser.__init__. -/
def classifierParserInit : IntentClassifierOutputState :=
  ⟨some [], [], [], none⟩

/-- IntentClassifierOutputParser.set_error. -/
def set_error (st : IntentClassifierOutputState) (error_reason : String) :
    IntentClassifierOutputState :=
  { st with error_reason := some error_reason }

/-- The dict returned by IntentClassifierOutputParser.get_output. -/
structure ClassifierOutput where
  is_successful : Bool
  intents : Option (List IntentName)
  dialog_acts : List SGDUserDialogAct
  error_reason : Option String
  slots : List (SlotName × JVal)
deriving Repr

/-- IntentClassifierOutputParser.get_output: the success flag is the Python
test "self.intents is not None". -/
def get_output (st : IntentClassifierOutputState) : ClassifierOutput :=
  ⟨st.intents.isSome, st.intents, st.dialog_acts, st.error_reason, st.slots⟩

/-- Python "value is None" test. -/
def JVal.isNull : JVal → Bool
  | .null => true
  | _ => false

/-- One iteration of the nested entity loop of set_success: a recognized
slot name stores its value in the slot map, an unknown one is skipped. -/
def slotStep (st2 : IntentClassifierOutputState) (p : String × JVal) :
    IntentClassifierOutputState :=
  match search_for_slot p.1 with
  | some known => { st2 with slots := updAssoc st2.slots (known, p.2) }
  | none => st2

/-- One key/value of a parsed JSONL line in set_success. Keys containing
"intent" with a non-None value resolve against the intent catalog and
append when known; keys containing "dialog_act" resolve against dialog
acts; anything else is treated as a nested slot map. Calling .lower() on a
non-string, or .items() on a non-dict, raises (modelled as Except.error). -/
def processPair (st : IntentClassifierOutputState) (key : String)
    (v : JVal) : Except String IntentClassifierOutputState :=
  if strContains "intent" key && !v.isNull then
    match v with
    | .str s =>
      match search_for_intent s with
      | some known => .ok { st with intents := st.intents.map (· ++ [known]) }
      | none => .ok st
    | _ => .error "AttributeError"
  else if strContains "dialog_act" key then
    match v with
    | .str s =>
      match search_for_dialog_act s with
      | some known => .ok { st with dialog_acts := st.dialog_acts ++ [known] }
      | none => .ok st
    | _ => .error "AttributeError"
  else
    match v with
    | .obj fields => .ok (fields.foldl slotStep st)
    | _ => .error "AttributeError"

/-- The obj.items() loop of set_success over one parsed JSONL line. -/
def processObj (st : IntentClassifierOutputState) :
    List (String × JVal) → Except String IntentClassifierOutputState
  | [] => .ok st
  | (k, v) :: rest =>
    match processPair st k v with
    | .ok st2 => processObj st2 rest
    | .error e => .error e

/-- IntentClassifierOutputParser.set_success applied to the parsed JSONL
lines (json.loads of each non-blank line is modelled as already done;
code-fence stripping leaves the line objects unchanged). -/
def set_success_lines (st : IntentClassifierOutputState) :
    List (List (String × JVal)) → Except String IntentClassifierOutputState
  | [] => .ok st
  | line :: rest =>
    match processObj st line with
    | .ok st2 => set_success_lines st2 rest
    | .error e => .error e

/-- A key/value pair of a structurally valid classifier line: intent keys
and dialog-act keys carry strings, every other key carries a nested object
of entities. -/
def benignPair (p : String × JVal) : Bool :=
  if strContains "intent" p.1 then
    match p.2 with
    | .str _ => true
    | _ => false
  else if strContains "dialog_act" p.1 then
    match p.2 with
    | .str _ => true
    | _ => false
  else
    match p.2 with
    | .obj _ => true
    | _ => false

/-- The catalog intent contributed by one key/value pair of a line: the
resolved intent of an intent key holding a known name, nothing otherwise. -/
def intentOfPair (p : String × JVal) : Option IntentName :=
  if strContains "intent" p.1 then
    match p.2 with
    | .str s => search_for_intent s
    | _ => none
  else none

/-- The catalog intents named by the intent keys of a line, in order,
unknown names dropped. -/
def knownIntentsOf (fields : List (String × JVal)) : List IntentName :=
  fields.filterMap intentOfPair

/-! ## Retrieval framework (http_retriever.py) -/

/-- A Python exception at the retrieval boundary: requests HTTPError carries
the response status code; any other exception carries its class name. -/
inductive PyExn where
  | httpError (status : Nat) (msg : String)
  | err (name : String) (msg : String)
deriving DecidableEq, Repr

/-- e.__class__.__name__ of a modelled exception. -/
def PyExn.typeName : PyExn → String
  | .httpError _ _ => "HTTPError"
  | .err n _ => n

/-- str(e) of a modelled exception. -/
def PyExn.message : PyExn → String
  | .httpError _ m => m
  | .err _ m => m

/-- Outcome of one _call_api_once at a given start position: a raw page
body with its item count (the _to_json result), or a raised exception
(raise_for_status, token errors, json decoding). -/
inductive ApiResult (P : Type) where
  | page (body : P) (numItems : Nat)
  | raise (e : PyExn)

/-- Result of running a fallible, possibly non-terminating block: a value,
a raised exception together with the number of HTTP GETs issued before the
raise, or fuel exhaustion (the Python loop would still be running). -/
inductive RunRes (α : Type) where
  | ok (a : α)
  | raised (e : PyExn) (netCalls : Nat)
  | nofuel
deriving Repr

/-- HTTPRetriever._call_api: append every raw page response, stop as soon as
a page has fewer items than page_size, otherwise advance start_pos by
page_size and fetch again. The accumulator, current start position and GET
count are threaded; fuel bounds the number of iterations. -/
def callApiLoop {P : Type} (api : Nat → ApiResult P) (pageSize : Nat) :
    Nat → Nat → List P → Nat → RunRes (List P × Nat × Nat)
  | 0, _, _, _ => .nofuel
  | fuel + 1, startPos, acc, calls =>
    match api startPos with
    | .raise e => .raised e (calls + 1)
    | .page body numItems =>
      if numItems < pageSize then .ok (acc ++ [body], startPos, calls + 1)
      else callApiLoop api pageSize fuel (startPos + pageSize)
        (acc ++ [body]) (calls + 1)

/-- The save_file_path resolution at the top of try_cache and cache: the
literal string "default" is replaced by cache_key.jsonl, any other value is
kept. -/
def resolvePath (cacheKey : String) : Option String → Option String
  | some p => if p = "default" then some (cacheKey ++ ".jsonl") else some p
  | none => none

/-- Python truthiness of the save_file_path: None and the empty string are
falsy. -/
def pathTruthy : Option String → Bool
  | some p => !(p == "")
  | none => false

/-- The file system visible to the retriever: file path to the list of
parsed JSON lines stored in it (each cached page is one line of
newline-delimited JSON; json.dumps followed by json.loads is the
identity on these page objects). -/
structure FileSys (P : Type) where
  files : List (String × List P)
deriving Repr

/-- os.path.exists plus reading all lines: the stored lines when the file
exists. -/
def FileSys.read {P : Type} (fs : FileSys P) (path : String) :
    Option (List P) :=
  alookup fs.files path

/-- open(path, mode a) and writing one line per response: append to the
existing file, or create it. -/
def FileSys.appendLines {P : Type} (fs : FileSys P) (path : String)
    (lines : List P) : FileSys P :=
  if fs.files.any (fun e => decide (e.1 = path)) then
    ⟨fs.files.map (fun e => if e.1 = path then (e.1, e.2 ++ lines) else e)⟩
  else ⟨fs.files ++ [(path, lines)]⟩

/-- Mutable state of an HTTPRetriever instance. -/
structure HTTPRetrieverState where
  save_file_path : Option String
  page_size : Nat
  start_pos : Nat
deriving Repr

/-- HTTPRetriever.__init__ state: page_size 100 and start_pos 1. -/
def retrieverInit (save_file_path : Option String) : HTTPRetrieverState :=
  ⟨save_file_path, 100, 1⟩

/-- HTTPRetriever.try_cache: resolve the default path, then return the
parsed lines when a truthy path names an existing file; the path resolution
mutates the retriever state. -/
def try_cache {P : Type} (cacheKey : String) (st : HTTPRetrieverState)
    (fs : FileSys P) : Option (List P) × HTTPRetrieverState :=
  let sp := resolvePath cacheKey st.save_file_path
  let st2 := { st with save_file_path := sp }
  match sp with
  | some p => if p == "" then (none, st2) else (fs.read p, st2)
  | none => (none, st2)

/-- HTTPRetriever.cache: resolve the default path, then append one line per
response when the path is truthy. -/
def cacheWrite {P : Type} (cacheKey : String) (st : HTTPRetrieverState)
    (fs : FileSys P) (responses : List P) :
    HTTPRetrieverState × FileSys P :=
  let sp := resolvePath cacheKey st.save_file_path
  let st2 := { st with save_file_path := sp }
  match sp with
  | some p => if p == "" then (st2, fs) else (st2, fs.appendLines p responses)
  | none => (st2, fs)

/-- Successful outcome of HTTPRetriever.retrieve: the responses, the final
retriever state, the final file system and the number of HTTP GETs issued
during the call. -/
structure RetrieveOk (P : Type) where
  responses : List P
  state : HTTPRetrieverState
  fs : FileSys P
  netCalls : Nat
deriving Repr

/-- HTTPRetriever.retrieve: raise when the connection is not authorized;
answer from the cache when try_cache hits; otherwise run the pagination
loop and persist the pages. -/
def retrieve {P : Type} (api : Nat → ApiResult P) (connected : Bool)
    (cacheKey : String) (fuel : Nat) (st : HTTPRetrieverState)
    (fs : FileSys P) : RunRes (RetrieveOk P) :=
  if connected = false then
    .raised (.err "Exception" "Entity is no longer connected") 0
  else
    match try_cache cacheKey st fs with
    | (some responses, st1) => .ok ⟨responses, st1, fs, 0⟩
    | (none, st1) =>
      match callApiLoop api st1.page_size fuel st1.start_pos [] 0 with
      | .ok (responses, finalStart, calls) =>
        let st2 := { st1 with start_pos := finalStart }
        match cacheWrite cacheKey st2 fs responses with
        | (st3, fs2) => .ok ⟨responses, st3, fs2, calls⟩
      | .raised e c => .raised e c
      | .nofuel => .nofuel

/-- An upstream source where the GET at start position p succeeds and
returns the page pg p holding cnt p items. -/
def apiOf {P : Type} (pg : Nat → P) (cnt : Nat → Nat) :
    Nat → ApiResult P :=
  fun p => .page (pg p) (cnt p)

/-- Item counts of an upstream source holding exactly 250 matching records
under page size 100, split 100/100/50 over start positions 1, 101, 201. -/
def cnt250 : Nat → Nat :=
  fun p => if p = 1 then 100 else if p = 101 then 100
    else if p = 201 then 50 else 0

/-! ## Model-driven retrievers (ModelHTTPRetriever, QBUserDataRetriever) -/

/-- len(response_json.get(QueryResponse, empty dict)): the size of the
QueryResponse object of a page (0 for a missing key, matching the empty
default). -/
def qrSize (p : JVal) : Nat :=
  match p with
  | .obj fields =>
    match alookup fields "QueryResponse" with
    | some (.obj qr) => qr.length
    | some (.arr l) => l.length
    | some (.str s) => s.length
    | some _ => 0
    | none => 0
  | _ => 0

/-- The item count of _to_json: the length of the record array stored under
the extracted entity key inside QueryResponse, with empty defaults at both
levels. -/
def queryItemCount (p : JVal) (key : String) : Nat :=
  match p with
  | .obj fields =>
    match alookup fields "QueryResponse" with
    | some (.obj qr) =>
      match alookup qr key with
      | some (.arr l) => l.length
      | some (.obj fs) => fs.length
      | some (.str s) => s.length
      | some _ => 0
      | none => 0
    | _ => 0
  | _ => 0

/-- One _call_api_once of the model retrievers: the HTTP layer either
raises or delivers a JSON page whose item count _to_json computes with
queryItemCount under the entity key extracted from the query (the key and
the hash-based cache key are taken as parameters; the FROM-clause
extraction and sha256 hashing are not modelled). -/
def modelApi (http : Nat → Except PyExn JVal) (qkey : String) :
    Nat → ApiResult JVal :=
  fun pos =>
    match http pos with
    | .error e => .raise e
    | .ok body => .page body (queryItemCount body qkey)

/-- ModelHTTPRetriever.extract_result_summary for a non-empty response
list: a description naming the number of api calls plus the first raw page
as the sample. -/
def extract_result_summary (responses : List JVal) : Except PyExn JVal :=
  match responses with
  | [] => .error (.err "Exception" "Expected list of results, got list")
  | first :: _ =>
    .ok (.obj
      [("description",
        .str ("Did " ++ toString responses.length
          ++ " api calls within tool call. Sample result shown below.")),
       ("sample", first)])

/-- ModelHTTPRetriever.call_tool: retrieve inside try; empty response list
or empty first QueryResponse becomes a NoData error result; otherwise a
success result with the summarized sample; HTTPError is converted to an
error result carrying its status code, any other exception to an error
result named after its type. Returns the result together with the number
of HTTP GETs issued; none only when the loop fuel runs out. -/
def model_call_tool (http : Nat → Except PyExn JVal)
    (qkey cacheKey : String) (connected : Bool) (fuel : Nat)
    (st : HTTPRetrieverState) (fs : FileSys JVal) :
    Option (ToolCallResult × Nat) :=
  match retrieve (modelApi http qkey) connected cacheKey fuel st fs with
  | .nofuel => none
  | .raised (.httpError s m) calls =>
    some (ToolCallResult.error "qb_http_retriever" "HTTPError" m (some s),
      calls)
  | .raised (.err n m) calls =>
    some (ToolCallResult.error "qb_http_retriever" n m none, calls)
  | .ok out =>
    match out.responses with
    | [] =>
      some (ToolCallResult.error "qb_http_retriever" "NoData"
        "No data found" none, out.netCalls)
    | first :: _ =>
      if qrSize first = 0 then
        some (ToolCallResult.error "qb_http_retriever" "NoData"
          "No data found" none, out.netCalls)
      else
        match extract_result_summary out.responses with
        | .ok summary =>
          match ToolCallResult.success "qb_http_retriever"
              (cacheKey ++ ".jsonl") none (some summary) with
          | .ok r => some (r, out.netCalls)
          | .error m =>
            some (ToolCallResult.error "qb_http_retriever" "ValueError" m
              none, out.netCalls)
        | .error e =>
          some (ToolCallResult.error "qb_http_retriever" e.typeName
            e.message none, out.netCalls)

/-- QBUserDataRetriever.is_query_valid: require SELECT * in the uppercased
query, an ORDER BY clause in the raw query, and an expected row count
between 0 and 1000; each failure raises a ValueError. -/
def is_query_valid (query : Option String)
    (expected_row_count : Option Int) : Except PyExn Bool :=
  if !(strContains "SELECT *" (pyUpper (query.getD ""))) then
    .error (.err "ValueError" "Please select all columns by doing SELECT *")
  else if !(strContains "ORDER BY" (query.getD "")) then
    .error (.err "ValueError" "ORDER BY clause is missing")
  else
    match expected_row_count with
    | none =>
      .error (.err "ValueError"
        "Expected row count must be provided and greater than or equal to 0")
    | some n =>
      if n < 0 then
        .error (.err "ValueError"
          "Expected row count must be provided and greater than or equal to 0")
      else if 1000 < n then
        .error (.err "ValueError"
          "Expected row count must be less than 1000")
      else .ok true

/-- Python str() of the save_file_path inside the QB result summary. -/
def optStrPy : Option String → String
  | some s => s
  | none => "None"

/-- QBUserDataRetriever.extract_result_summary: a description naming the
call count and the save path (the sample line is commented out in the
source). -/
def qb_extract_result_summary (responses : List JVal)
    (save_file_path : Option String) : Except PyExn JVal :=
  match responses with
  | [] => .error (.err "Exception" "Expected list of results, got list")
  | _ :: _ =>
    .ok (.obj
      [("description",
        .str ("Did " ++ toString responses.length
          ++ " api calls within tool call. Data was stored in "
          ++ optStrPy save_file_path ++ "."))])

/-- QBUserDataRetriever.call_tool: validate the query first inside the same
try, then retrieve and classify exactly as the model retriever, except the
success payload goes into data rather than sample. A validation failure is
caught as a ValueError before any page is fetched, so it reports zero HTTP
GETs. -/
def qb_call_tool (http : Nat → Except PyExn JVal) (qkey cacheKey : String)
    (connected : Bool) (query : Option String)
    (expected_row_count : Option Int) (fuel : Nat)
    (st : HTTPRetrieverState) (fs : FileSys JVal) :
    Option (ToolCallResult × Nat) :=
  match is_query_valid query expected_row_count with
  | .error e =>
    some (ToolCallResult.error "qb_user_data_retriever" e.typeName
      e.message none, 0)
  | .ok _ =>
    match retrieve (modelApi http qkey) connected cacheKey fuel st fs with
    | .nofuel => none
    | .raised (.httpError s m) calls =>
      some (ToolCallResult.error "qb_user_data_retriever" "HTTPError" m
        (some s), calls)
    | .raised (.err n m) calls =>
      some (ToolCallResult.error "qb_user_data_retriever" n m none, calls)
    | .ok out =>
      match out.responses with
      | [] =>
        some (ToolCallResult.error "qb_user_data_retriever" "NoData"
          "No data found" none, out.netCalls)
      | first :: _ =>
        if qrSize first = 0 then
          some (ToolCallResult.error "qb_user_data_retriever" "NoData"
            "No data found" none, out.netCalls)
        else
          match qb_extract_result_summary out.responses
              out.state.save_file_path with
          | .ok summary =>
            match ToolCallResult.success "qb_user_data_retriever"
                (cacheKey ++ ".jsonl") (some summary) none with
            | .ok r => some (r, out.netCalls)
            | .error m =>
              some (ToolCallResult.error "qb_user_data_retriever"
                "ValueError" m none, out.netCalls)
          | .error e =>
            some (ToolCallResult.error "qb_user_data_retriever" e.typeName
              e.message none, out.netCalls)

/-! ## Intent catalog and intent server (structs.py, intents.py,
tod_types.py) -/

structure TIntent where
  name : String
  description : String
  required_slots : List SlotName
  optional_slots : List SlotName
  required_result_slots : List SlotName
  optional_result_slots : List SlotName
deriving Repr

/-- The HOTEL_BOOKING_INTENTS catalog, keyed by intent. -/
def HOTEL_BOOKING_INTENTS : IntentName → TIntent
  | .SEARCH_HOTELS =>
    ⟨"search_hotels", "search for hotels",
     [.LOCATION, .CHECK_IN, .CHECK_OUT, .GUESTS],
     [.PRICE_RANGE, .PARKING],
     [.HOTEL_NAME, .HOTEL_ADDRESS, .HOTEL_PRICE, .HOTEL_RATING],
     [.HOTEL_AMENITIES, .HOTEL_POLICIES, .HOTEL_IMAGES, .HOTEL_REVIEWS,
      .HOTEL_AVAILABILITY, .HOTEL_BOOKINGS]⟩
  | .GET_LISTING_DETAILS =>
    ⟨"get_listing_details", "get details of a hotel",
     [.HOTEL_NAME], [], [.HOTEL_NAME, .HOTEL_PRICE], []⟩
  | .BOOK_LISTING =>
    ⟨"book_listing", "book a hotel",
     [.HOTEL_NAME, .CHECK_IN, .CHECK_OUT, .GUESTS], [.PARKING],
     [.BOOKING_STATUS], []⟩
  | .GET_BOOKING =>
    ⟨"get_booking", "get details of a booking",
     [.BOOKING_ID], [],
     [.BOOKING_ID, .BOOKING_TIME, .BOOKING_STATUS], []⟩
  | .CANCEL_BOOKING =>
    ⟨"cancel_booking", "cancel a booking",
     [.BOOKING_ID, .BOOKING_CANCELLATION_REASON], [],
     [.BOOKING_ID, .BOOKING_STATUS], []⟩
  | .OTHER => ⟨"other", "other", [], [], [], []⟩
  | .AGENT_BUILDING => ⟨"agent_building", "build an agent", [], [], [], []⟩
  | .RETRIEVER_BUILDING =>
    ⟨"retriever_building", "build a retriever", [], [], [], []⟩
  | .QB => ⟨"qb", "query Quickbooks", [], [], [], []⟩

/-- Python dict key containment for the gathered-slots map. -/
def keyMem {V : Type} (s : SlotName) (g : List (SlotName × V)) : Bool :=
  g.any (fun p => decide (p.1 = s))

/-- IIntentServer.update_slots: merge each observed slot into the gathered
map when it is a required or optional slot of this intent; anything else is
only logged. -/
def update_slots {V : Type} (my_intent : IntentName)
    (gathered : List (SlotName × V)) (slots : List (SlotName × V)) :
    List (SlotName × V) :=
  slots.foldl (fun g p =>
    if p.1 ∈ (HOTEL_BOOKING_INTENTS my_intent).required_slots then
      updAssoc g p
    else if p.1 ∈ (HOTEL_BOOKING_INTENTS my_intent).optional_slots then
      updAssoc g p
    else g) gathered

/-- IIntentServer.missing_slots: the declared required slots not yet in the
gathered map. -/
def missing_slots {V : Type} (my_intent : IntentName)
    (gathered : List (SlotName × V)) : List SlotName :=
  (HOTEL_BOOKING_INTENTS my_intent).required_slots.filter
    (fun s => !keyMem s gathered)

/-- IIntentServer.can_continue_with_request. -/
def can_continue_with_request {V : Type} (my_intent : IntentName)
    (gathered : List (SlotName × V)) : Bool × List SlotName :=
  let ms := missing_slots my_intent gathered
  (ms.isEmpty, ms)

/-- The effect of one IIntentServer.serve call on the gathered-slots map:
serve merges the slots of the user turn and the subsequent branches only
read the state. -/
def serveSlotsStep {V : Type} (my_intent : IntentName)
    (gathered : List (SlotName × V)) (turn_slots : List (SlotName × V)) :
    List (SlotName × V) :=
  update_slots my_intent gathered turn_slots

/-! ## Theorems -/

/-- C3: the ToolCallResult success constructor accepts exactly one of data
and sample — providing both raises, providing neither raises — and a
success result built from a data payload serializes via to_dict to an
envelope whose content carries that payload under the data key and has no
sample key. -/
theorem toolCallResult_success_exclusive_and_round_trips :
    (∀ tn fn d s, ToolCallResult.success tn fn (some d) (some s) =
      .error "data and sample cannot be provided together")
    ∧ (∀ tn fn, ToolCallResult.success tn fn none none =
      .error "data or sample must be provided")
    ∧ (∀ tn fn d, ∃ r, ToolCallResult.success tn fn (some d) none = .ok r ∧
        r.to_dict = .ok (.obj
          [("status", .str "success"), ("tool_name", .str tn),
           ("content", .obj [("file_name", .str fn), ("data", d)])]) ∧
        alookup [("file_name", JVal.str fn), ("data", d)] "data" = some d ∧
        alookup [("file_name", JVal.str fn), ("data", d)] "sample" = none) := by
  refine ⟨fun tn fn d s => rfl, fun tn fn => rfl, fun tn fn d => ?_⟩
  exact ⟨_, rfl, rfl, rfl, rfl⟩

/-- C7: get_output defines is_successful purely as the intents list being
non-None; it is independent of error_reason, so after only set_error on a
fresh parser the output still reports is_successful as true. -/
theorem classifier_is_successful_ignores_error_reason :
    (∀ st : IntentClassifierOutputState,
      (get_output st).is_successful = st.intents.isSome)
    ∧ ∀ reason,
      (get_output (set_error classifierParserInit reason)).is_successful
        = true
      ∧ (get_output (set_error classifierParserInit reason)).error_reason
        = some reason
      ∧ (get_output (set_error classifierParserInit reason)).intents
        = some [] :=
  ⟨fun _ => rfl, fun _ => ⟨rfl, rfl, rfl⟩⟩

/-- C5: conversation_history_before_last_user_turn agrees everywhere with
the specified windowing (summary up to and including the most recent bot
message before the last user turn; all messages strictly before the last
user turn when no such bot message exists; empty when there is no user
turn), and on the concrete histories: user A, bot B, user C yields A and B
and excludes C; user A, user C yields only A; an empty history yields the
empty string. -/
theorem history_before_last_user_turn_correct :
    (∀ mem : STMemory,
      mem.conversation_history_before_last_user_turn =
        historyBeforeLastUserTurnSpec mem.conversation_history)
    ∧ STMemory.conversation_history_before_last_user_turn
        ⟨"u", [⟨"user", "A", none, 0, []⟩, ⟨"bot", "B", none, 0, []⟩,
               ⟨"user", "C", none, 0, []⟩], []⟩ = "user: A\nbot: B"
    ∧ STMemory.conversation_history_before_last_user_turn
        ⟨"u", [⟨"user", "A", none, 0, []⟩, ⟨"user", "C", none, 0, []⟩], []⟩
        = "user: A"
    ∧ STMemory.conversation_history_before_last_user_turn
        ⟨"u", [], []⟩ = "" := by
  refine ⟨?_, rfl, rfl, rfl⟩
  intro mem
  rcases e : lastIdxWithRole "user" mem.conversation_history with _ | u
  · simp [STMemory.conversation_history_before_last_user_turn,
      STMemory.last_user_turn_index, historyBeforeLastUserTurnSpec, e]
  · cases u with
    | zero =>
      simp [STMemory.conversation_history_before_last_user_turn,
        STMemory.last_user_turn_index, historyBeforeLastUserTurnSpec, e,
        lastIdxWithRole, summaryLines]
      rfl
    | succ v =>
      have hle : ¬ ((((v + 1 : Nat) : Int)) ≤ 0) := by
        omega
      simp [STMemory.conversation_history_before_last_user_turn,
        STMemory.last_user_turn_index, historyBeforeLastUserTurnSpec, e,
        hle]

theorem keyMem_updAssoc {V : Type} (g : List (SlotName × V))
    (p : SlotName × V) (s : SlotName) (h : keyMem s g = true) :
    keyMem s (updAssoc g p) = true := by
  unfold keyMem updAssoc at *
  rcases List.any_eq_true.mp h with ⟨q, hq, hqs⟩
  by_cases hc : g.any (fun x => decide (x.1 = p.1))
  · simp only [hc, if_pos]
    refine List.any_eq_true.mpr ?_
    refine ⟨if q.1 = p.1 then p else q, List.mem_map.mpr ⟨q, hq, rfl⟩, ?_⟩
    by_cases hqp : q.1 = p.1
    · simp only [hqp, if_pos rfl]
      simpa [← hqp] using hqs
    · simp [hqp, hqs]
  · simp only [hc, if_neg, Bool.false_eq_true, not_false_iff]
    exact List.any_eq_true.mpr ⟨q, List.mem_append_left _ hq, hqs⟩

theorem keyMem_update_slots {V : Type} (my_intent : IntentName)
    (xs : List (SlotName × V)) :
    ∀ (g : List (SlotName × V)) (s : SlotName), keyMem s g = true →
      keyMem s (update_slots my_intent g xs) = true := by
  induction xs with
  | nil => intro g s h; simpa [update_slots] using h
  | cons x rest ih =>
    intro g s h
    simp only [update_slots, List.foldl_cons]
    by_cases h1 : x.1 ∈ (HOTEL_BOOKING_INTENTS my_intent).required_slots
    · simpa [update_slots, h1] using ih (updAssoc g x) s (keyMem_updAssoc g x s h)
    · by_cases h2 : x.1 ∈ (HOTEL_BOOKING_INTENTS my_intent).optional_slots
      · simpa [update_slots, h1, h2] using
          ih (updAssoc g x) s (keyMem_updAssoc g x s h)
      · simpa [update_slots, h1, h2] using ih g s h

/-- C9: update_slots only adds or overwrites gathered slots, the missing
required-slot set never grows, and once every required slot is gathered,
can_continue_with_request stays true across any further sequence of serve
calls on the same server. -/
theorem intent_server_slots_monotone :
    ∀ (V : Type) (my_intent : IntentName) (gathered : List (SlotName × V))
      (xs : List (SlotName × V)),
      (∀ s, keyMem s gathered = true →
        keyMem s (update_slots my_intent gathered xs) = true)
      ∧ (∀ s, s ∈ missing_slots my_intent (update_slots my_intent gathered xs)
          → s ∈ missing_slots my_intent gathered)
      ∧ ∀ turns : List (List (SlotName × V)),
          (can_continue_with_request my_intent gathered).1 = true →
          (can_continue_with_request my_intent
            (turns.foldl (serveSlotsStep my_intent) gathered)).1 = true := by
  intro V my_intent gathered xs
  refine ⟨fun s => keyMem_update_slots my_intent xs gathered s, ?_, ?_⟩
  · intro s hs
    rcases List.mem_filter.mp hs with ⟨hreq, hkey⟩
    refine List.mem_filter.mpr ⟨hreq, ?_⟩
    by_contra hk
    have hk2 : keyMem s gathered = true := by
      cases h : keyMem s gathered
      · exact absurd (by simp [h]) hk
      · rfl
    have := keyMem_update_slots my_intent xs gathered s hk2
    simp [this] at hkey
  · intro turns
    have main : ∀ (ts : List (List (SlotName × V)))
        (g : List (SlotName × V)),
        (∀ s, s ∈ (HOTEL_BOOKING_INTENTS my_intent).required_slots →
          keyMem s g = true) →
        ∀ s, s ∈ (HOTEL_BOOKING_INTENTS my_intent).required_slots →
          keyMem s (ts.foldl (serveSlotsStep my_intent) g) = true := by
      intro ts
      induction ts with
      | nil => intro g hg s hs; simpa using hg s hs
      | cons t rest ih =>
        intro g hg s hs
        simp only [List.foldl_cons]
        exact ih (serveSlotsStep my_intent g t)
          (fun s2 hs2 => keyMem_update_slots my_intent t g s2 (hg s2 hs2))
          s hs
    intro hcan
    have hall : ∀ s, s ∈ (HOTEL_BOOKING_INTENTS my_intent).required_slots →
        keyMem s gathered = true := by
      intro s hs
      by_contra hk
      have hmem : s ∈ missing_slots my_intent gathered :=
        List.mem_filter.mpr ⟨hs, by
          cases h : keyMem s gathered
          · simp
          · exact absurd h hk⟩
      have : missing_slots my_intent gathered = [] := by
        simpa [can_continue_with_request, List.isEmpty_iff] using hcan
      simp [this] at hmem
    have : missing_slots my_intent
        (turns.foldl (serveSlotsStep my_intent) gathered) = [] := by
      refine List.eq_nil_iff_forall_not_mem.mpr ?_
      intro s hmem
      rcases List.mem_filter.mp hmem with ⟨hreq, hkey⟩
      have := main turns gathered hall s hreq
      simp [this] at hkey
    simp [can_continue_with_request, this]

/-- C9 witness: for the booking-lookup intent with its required booking id
already gathered, can_continue_with_request is true and stays true after a
further serve step that merges an unrelated slot. -/
theorem intent_server_slots_monotone_witness :
    (can_continue_with_request IntentName.GET_BOOKING
      [(SlotName.BOOKING_ID, JVal.str "42")]).1 = true
    ∧ (can_continue_with_request IntentName.GET_BOOKING
      ([[(SlotName.BOOKING_TIME, JVal.str "now")]].foldl
        (serveSlotsStep IntentName.GET_BOOKING)
        [(SlotName.BOOKING_ID, JVal.str "42")])).1 = true :=
  ⟨by decide, (intent_server_slots_monotone JVal IntentName.GET_BOOKING
    [(SlotName.BOOKING_ID, JVal.str "42")] []).2.2
    [[(SlotName.BOOKING_TIME, JVal.str "now")]] (by decide)⟩

theorem cons_map_range_shift {α : Type} (f : Nat → α) (s ps n : Nat) :
    f s :: (List.range (n + 1)).map (fun i => f (s + ps + i * ps)) =
      (List.range (n + 1 + 1)).map (fun i => f (s + i * ps)) := by
  conv_rhs => rw [List.range_succ_eq_map, List.map_cons, List.map_map]
  simp only [Nat.zero_mul, Nat.add_zero]
  congr 1
  refine List.map_congr_left ?_
  intro i _
  simp only [Function.comp_apply]
  congr 1
  simp only [Nat.succ_eq_add_one]
  ring

theorem callApiLoop_ok_of_counts {P : Type} (pg : Nat → P)
    (cnt : Nat → Nat) (ps : Nat) :
    ∀ (k fuel startPos : Nat) (acc : List P) (calls : Nat),
      k < fuel →
      (∀ i, i < k → ps ≤ cnt (startPos + i * ps)) →
      cnt (startPos + k * ps) < ps →
      callApiLoop (apiOf pg cnt) ps fuel startPos acc calls =
        .ok (acc ++ (List.range (k + 1)).map
              (fun i => pg (startPos + i * ps)),
          startPos + k * ps, calls + (k + 1)) := by
  intro k
  induction k with
  | zero =>
    intro fuel startPos acc calls hf _ hstop
    match fuel, hf with
    | fuel + 1, _ =>
      have h0 : cnt startPos < ps := by simpa using hstop
      simp [callApiLoop, apiOf, h0, List.range_succ]
  | succ n ih =>
    intro fuel startPos acc calls hf hge hstop
    match fuel, hf with
    | fuel + 1, hf =>
      have h0 : ps ≤ cnt startPos := by simpa using hge 0 (Nat.succ_pos n)
      have hnotlt : ¬ (cnt startPos < ps) := by omega
      have harg : ∀ i, startPos + ps + i * ps = startPos + (i + 1) * ps := by
        intro i; ring
      have hstep := ih fuel (startPos + ps) (acc ++ [pg startPos])
        (calls + 1) (by omega)
        (fun i hi => by
          rw [harg i]
          exact hge (i + 1) (by omega))
        (by rw [harg n]; exact hstop)
      simp only [callApiLoop, apiOf, hnotlt, if_neg, not_false_iff]
      rw [hstep, List.append_assoc, List.singleton_append,
        cons_map_range_shift pg startPos ps n, harg n,
        show calls + 1 + (n + 1) = calls + (n + 1 + 1) by omega]

/-- C1: on a cache miss the pagination loop issues one HTTP GET per page
starting at position 1 and stepping by the page size, stops exactly at the
first page holding fewer items than the page size, and appends every raw
page response unmerged; with counts 100/100/50 it performs exactly 3
fetches and keeps all 3 raw pages; a first page holding exactly 100 items
(the page size) triggers a second fetch instead of stopping. -/
theorem pagination_one_get_per_page_stop_at_short_page :
    (∀ (P : Type) (pg : Nat → P) (cnt : Nat → Nat) (ps k fuel : Nat),
      k < fuel →
      (∀ i, i < k → ps ≤ cnt (1 + i * ps)) →
      cnt (1 + k * ps) < ps →
      callApiLoop (apiOf pg cnt) ps fuel 1 [] 0 =
        .ok ((List.range (k + 1)).map (fun i => pg (1 + i * ps)),
          1 + k * ps, k + 1))
    ∧ (∀ (P : Type) (pg : Nat → P) (fuel : Nat), 2 < fuel →
      callApiLoop (apiOf pg cnt250) 100 fuel 1 [] 0 =
        .ok ([pg 1, pg 101, pg 201], 201, 3))
    ∧ (∀ (P : Type) (pg : Nat → P) (cnt : Nat → Nat) (fuel : Nat),
      cnt 1 = 100 →
      callApiLoop (apiOf pg cnt) 100 (fuel + 1) 1 [] 0 =
        callApiLoop (apiOf pg cnt) 100 fuel 101 [pg 1] 1) := by
  refine ⟨?_, ?_, ?_⟩
  · intro P pg cnt ps k fuel hf hge hstop
    simpa using callApiLoop_ok_of_counts pg cnt ps k fuel 1 [] 0 hf hge hstop
  · intro P pg fuel hf
    match fuel, hf with
    | fuel + 3, _ => rfl
  · intro P pg cnt fuel hcnt
    have hnotlt : ¬ (cnt 1 < 100) := by omega
    simp [callApiLoop, apiOf, hnotlt]

/-- C1 witness: the 250-record source split 100/100/50 under page size 100,
fetched with ample fuel, yields exactly the three raw pages at start
positions 1, 101 and 201 with three GETs issued. -/
theorem pagination_witness :
    callApiLoop (apiOf (fun n => n) cnt250) 100 10 1 [] 0 =
      .ok ([1, 101, 201], 201, 3) :=
  pagination_one_get_per_page_stop_at_short_page.2.1 Nat (fun n => n) 10
    (by decide)

theorem callApiLoop_calls_length {P : Type} (api : Nat → ApiResult P)
    (ps : Nat) :
    ∀ (fuel startPos : Nat) (acc : List P) (calls : Nat)
      (resp : List P) (s c : Nat),
      callApiLoop api ps fuel startPos acc calls = .ok (resp, s, c) →
      c + acc.length = calls + resp.length ∧ calls < c := by
  intro fuel
  induction fuel with
  | zero => intro startPos acc calls resp s c h; simp [callApiLoop] at h
  | succ n ih =>
    intro startPos acc calls resp s c h
    simp only [callApiLoop] at h
    cases hapi : api startPos with
    | raise e => rw [hapi] at h; simp at h
    | page body numItems =>
      rw [hapi] at h
      dsimp only at h
      by_cases hlt : numItems < ps
      · rw [if_pos hlt] at h
        have h2 := h
        simp only [RunRes.ok.injEq, Prod.mk.injEq] at h2
        obtain ⟨hresp, _, hc⟩ := h2
        subst hresp
        subst hc
        constructor
        · simp [List.length_append]
          omega
        · omega
      · rw [if_neg hlt] at h
        have := ih (startPos + ps) (acc ++ [body]) (calls + 1) resp s c h
        rcases this with ⟨h1, h2⟩
        constructor
        · simp [List.length_append] at h1
          omega
        · omega

theorem state_save_eta (st : HTTPRetrieverState)
    (h : st.save_file_path = none) :
    ({ st with save_file_path := none } : HTTPRetrieverState) = st := by
  cases st
  simp_all

/-- C10: caching is opt-in — a retriever constructed without a
save_file_path reads nothing from the cache, writes nothing to the file
system, and every retrieve performs fresh network fetches, one GET per
returned page. -/
theorem retrieve_without_save_path_is_fresh :
    ∀ (P : Type) (api : Nat → ApiResult P) (cacheKey : String) (fuel : Nat)
      (st : HTTPRetrieverState) (fs : FileSys P) (resp : List P)
      (finalStart calls : Nat),
      st.save_file_path = none →
      callApiLoop api st.page_size fuel st.start_pos [] 0 =
        .ok (resp, finalStart, calls) →
      retrieve api true cacheKey fuel st fs =
        .ok ⟨resp, { st with start_pos := finalStart }, fs, calls⟩
      ∧ calls = resp.length ∧ 0 < calls
      ∧ try_cache cacheKey st fs = (none, st)
      ∧ ∀ rs : List P, cacheWrite cacheKey st fs rs = (st, fs) := by
  intro P api cacheKey fuel st fs resp finalStart calls hsave hloop
  have htc : try_cache cacheKey st fs = (none, st) := by
    simp [try_cache, resolvePath, hsave, state_save_eta st hsave]
  have hcw2 : cacheWrite cacheKey { st with start_pos := finalStart } fs
      resp = ({ st with start_pos := finalStart }, fs) := by
    simp [cacheWrite, resolvePath, hsave]
  have hcalls := callApiLoop_calls_length api st.page_size fuel
    st.start_pos [] 0 resp finalStart calls hloop
  refine ⟨?_, by simpa using hcalls.1, by simpa using hcalls.2, htc, ?_⟩
  · simp only [retrieve, htc, hloop, hcw2]
    simp
  · intro rs
    simp [cacheWrite, resolvePath, hsave, state_save_eta st hsave]

/-- C10 witness: a two-page source retrieved with no save path leaves the
file system untouched and issues one GET per page. -/
theorem retrieve_without_save_path_witness :
    retrieve (apiOf (fun n => n) (fun p => if p = 1 then 100 else 3)) true
        "key" 5 ⟨none, 100, 1⟩ ⟨[("other.jsonl", [0])]⟩ =
      .ok ⟨[1, 101], ⟨none, 100, 101⟩, ⟨[("other.jsonl", [0])]⟩, 2⟩ := by
  have h := retrieve_without_save_path_is_fresh Nat
    (apiOf (fun n => n) (fun p => if p = 1 then 100 else 3)) "key" 5
    ⟨none, 100, 1⟩ ⟨[("other.jsonl", [0])]⟩ [1, 101] 101 2 rfl (by rfl)
  exact h.1

theorem append_jsonl_ne_default (key : String) :
    key ++ ".jsonl" ≠ "default" := by
  intro h
  have hd : key.data ++ (".jsonl" : String).data = ("default" : String).data := by
    simpa [String.data_append] using congrArg String.data h
  rcases e : key.data with _ | ⟨c, _ | ⟨c2, rest2⟩⟩ <;> rw [e] at hd
  · rw [List.nil_append] at hd
    exact absurd (String.ext hd) (by decide)
  · rw [show (".jsonl" : String).data = [Char.ofNat 46, Char.ofNat 106,
        Char.ofNat 115, Char.ofNat 111, Char.ofNat 110, Char.ofNat 108]
        from rfl,
      show ("default" : String).data = [Char.ofNat 100, Char.ofNat 101,
        Char.ofNat 102, Char.ofNat 97, Char.ofNat 117, Char.ofNat 108,
        Char.ofNat 116] from rfl] at hd
    simp only [List.cons_append, List.nil_append, List.cons.injEq] at hd
    exact absurd hd.2.1 (by decide)
  · have hlen := congrArg List.length hd
    rw [List.length_append] at hlen
    rw [show ((".jsonl" : String).data).length = 6 from rfl,
      show (("default" : String).data).length = 7 from rfl] at hlen
    simp only [List.length_cons] at hlen
    omega

theorem jsonl_append_ne_empty (key : String) : key ++ ".jsonl" ≠ "" := by
  intro h
  have hl := congrArg String.length h
  rw [String.length_append, show (".jsonl" : String).length = 6 from rfl,
    show ("" : String).length = 0 from rfl] at hl
  omega

theorem alookup_none_any_false {V : Type} (xs : List (String × V))
    (p : String) (h : alookup xs p = none) :
    xs.any (fun e => decide (e.1 = p)) = false := by
  induction xs with
  | nil => rfl
  | cons x rest ih =>
    simp only [alookup] at h
    by_cases hx : x.1 = p
    · rw [if_pos hx] at h; exact absurd h (by simp)
    · rw [if_neg hx] at h
      simp [hx, ih h]

theorem alookup_append_singleton {V : Type} (xs : List (String × V))
    (p : String) (l : V) (h : alookup xs p = none) :
    alookup (xs ++ [(p, l)]) p = some l := by
  induction xs with
  | nil => simp [alookup]
  | cons x rest ih =>
    simp only [alookup] at h ⊢
    by_cases hx : x.1 = p
    · rw [if_pos hx] at h; exact absurd h (by simp)
    · rw [if_neg hx] at h ⊢
      exact ih h

theorem read_appendLines_fresh {P : Type} (fs : FileSys P) (p : String)
    (l : List P) (h : fs.read p = none) :
    (fs.appendLines p l).read p = some l := by
  unfold FileSys.read at h
  unfold FileSys.appendLines FileSys.read
  rw [alookup_none_any_false fs.files p h]
  simp only [Bool.false_eq_true, if_neg, not_false_iff]
  exact alookup_append_singleton fs.files p l h

theorem set_save_self (st : HTTPRetrieverState) (sp : Option String)
    (h : st.save_file_path = sp) :
    ({ st with save_file_path := sp } : HTTPRetrieverState) = st := by
  cases st
  cases h
  rfl

/-- C2: once the cache file for an unchanged cache key exists, retrieve is
idempotent with respect to the network — for any retriever whose save path
is set (not None and not empty), after one successful retrieve a second
retrieve issues zero HTTP GETs, leaves state and file system unchanged, and
returns the same pages verbatim. -/
theorem retrieve_cache_idempotent :
    ∀ (P : Type) (api : Nat → ApiResult P) (cacheKey : String)
      (fuel fuel2 : Nat) (st : HTTPRetrieverState) (fs : FileSys P)
      (out : RetrieveOk P),
      st.save_file_path ≠ none →
      st.save_file_path ≠ some "" →
      retrieve api true cacheKey fuel st fs = .ok out →
      retrieve api true cacheKey fuel2 out.state out.fs =
        .ok ⟨out.responses, out.state, out.fs, 0⟩ := by
  intro P api cacheKey fuel fuel2 st fs out hnn hne hret
  rcases hq : st.save_file_path with _ | q
  · exact absurd hq hnn
  have hqe : q ≠ "" := by
    intro h; rw [h] at hq; exact hne hq
  obtain ⟨p, hres, hp1, hp2⟩ :
      ∃ p, resolvePath cacheKey (some q) = some p ∧ p ≠ "" ∧ p ≠ "default" := by
    by_cases hd : q = "default"
    · exact ⟨cacheKey ++ ".jsonl", by simp [resolvePath, hd],
        jsonl_append_ne_empty cacheKey, append_jsonl_ne_default cacheKey⟩
    · exact ⟨q, by simp [resolvePath, hd], hqe, hd⟩
  have hpb : (p == "") = false := by
    simp [hp1]
  have htc : try_cache cacheKey st fs =
      (fs.read p, { st with save_file_path := some p }) := by
    simp [try_cache, hq, hres, hpb]
  have htc2 : ∀ (st2 : HTTPRetrieverState) (fs2 : FileSys P),
      st2.save_file_path = some p →
      try_cache cacheKey st2 fs2 = (fs2.read p, st2) := by
    intro st2 fs2 h2
    have hres2 : resolvePath cacheKey (some p) = some p := by
      simp [resolvePath, hp2]
    simp [try_cache, h2, hres2, hpb, set_save_self st2 (some p) h2]
  simp only [retrieve, htc] at hret
  rw [if_neg (show ¬ (true = false) by simp)] at hret
  rcases hread : fs.read p with _ | resp
  · rw [hread] at hret
    dsimp only at hret
    rcases hl : callApiLoop api st.page_size fuel st.start_pos [] 0 with
      ⟨resp, fstart, calls⟩ | ⟨e, c⟩ | _
    · rw [hl] at hret
      dsimp only at hret
      have hres2 : resolvePath cacheKey (some p) = some p := by
        simp [resolvePath, hp2]
      have hcw : cacheWrite cacheKey ({ st with save_file_path := some p, start_pos := fstart }) fs resp = (({ st with save_file_path := some p, start_pos := fstart } : HTTPRetrieverState), fs.appendLines p resp) := by
        simp [cacheWrite, hres2, hpb]
      rw [hcw] at hret
      dsimp only at hret
      simp only [RunRes.ok.injEq] at hret
      subst hret
      have hsave2 : ({ st with save_file_path := some p, start_pos := fstart } : HTTPRetrieverState).save_file_path = some p := rfl
      simp only [retrieve]
      rw [if_neg (show ¬ (true = false) by simp)]
      rw [htc2 ({ st with save_file_path := some p, start_pos := fstart }) (fs.appendLines p resp) hsave2]
      rw [read_appendLines_fresh fs p resp hread]
    · rw [hl] at hret
      simp at hret
    · rw [hl] at hret
      simp at hret
  · rw [hread] at hret
    dsimp only at hret
    simp only [RunRes.ok.injEq] at hret
    subst hret
    have hsave2 : ({ st with save_file_path := some p } : HTTPRetrieverState).save_file_path = some p := rfl
    simp only [retrieve]
    rw [if_neg (show ¬ (true = false) by simp)]
    rw [htc2 ({ st with save_file_path := some p }) fs hsave2]
    rw [hread]

/-- C2 witness: a concrete miss-then-hit run — after the first retrieve
populates cache file k.jsonl, the second retrieve returns the same single
page with zero GETs and unchanged state. -/
theorem retrieve_cache_idempotent_witness :
    retrieve (apiOf (fun n => n) (fun _ => 0)) true "k" 7
        ⟨some "k.jsonl", 100, 1⟩ ⟨[("k.jsonl", [1])]⟩ =
      .ok ⟨[1], ⟨some "k.jsonl", 100, 1⟩, ⟨[("k.jsonl", [1])]⟩, 0⟩ := by
  have h := retrieve_cache_idempotent Nat
    (apiOf (fun n => n) (fun _ => 0)) "k" 5 7
    ⟨some "default", 100, 1⟩ ⟨[]⟩
    ⟨[1], ⟨some "k.jsonl", 100, 1⟩, ⟨[("k.jsonl", [1])]⟩, 1⟩
    (by simp) (by simp) (by rfl)
  exact h

theorem is_query_valid_error_shape (query : Option String)
    (erc : Option Int) (e : PyExn)
    (h : is_query_valid query erc = .error e) :
    ∃ m, e = .err "ValueError" m := by
  cases c1 : strContains "SELECT *" (pyUpper (query.getD ""))
  · simp [is_query_valid, c1] at h
    exact ⟨_, h.symm⟩
  · cases c2 : strContains "ORDER BY" (query.getD "")
    · simp [is_query_valid, c1, c2] at h
      exact ⟨_, h.symm⟩
    · cases erc with
      | none =>
        simp [is_query_valid, c1, c2] at h
        exact ⟨_, h.symm⟩
      | some n =>
        by_cases c3 : n < 0
        · simp [is_query_valid, c1, c2, c3] at h
          exact ⟨_, h.symm⟩
        · by_cases c4 : 1000 < n
          · simp [is_query_valid, c1, c2, c3, c4] at h
            exact ⟨_, h.symm⟩
          · simp [is_query_valid, c1, c2, c3, c4] at h

theorem is_query_valid_ok_shape (query : Option String)
    (erc : Option Int) (b : Bool)
    (h : is_query_valid query erc = .ok b) :
    strContains "SELECT *" (pyUpper (query.getD "")) = true
    ∧ strContains "ORDER BY" (query.getD "") = true
    ∧ ∃ n, erc = some n ∧ 0 ≤ n ∧ n ≤ 1000 := by
  cases c1 : strContains "SELECT *" (pyUpper (query.getD ""))
  · simp [is_query_valid, c1] at h
  · cases c2 : strContains "ORDER BY" (query.getD "")
    · simp [is_query_valid, c1, c2] at h
    · cases erc with
      | none => simp [is_query_valid, c1, c2] at h
      | some n =>
        by_cases c3 : n < 0
        · simp [is_query_valid, c1, c2, c3] at h
        · by_cases c4 : 1000 < n
          · simp [is_query_valid, c1, c2, c3, c4] at h
          · exact ⟨rfl, rfl, n, rfl, by omega, by omega⟩

/-- C8: a malformed user-data request — query lacking SELECT * (in the
uppercased query), query lacking an ORDER BY clause, or expected row count
missing, negative, or above the 1000 bound — fails validation inside
call_tool before dispatch, producing a ValueError error result with zero
HTTP GETs issued. -/
theorem qb_validation_rejects_before_dispatch :
    ∀ (http : Nat → Except PyExn JVal) (qkey cacheKey : String)
      (connected : Bool) (query : Option String) (erc : Option Int)
      (fuel : Nat) (st : HTTPRetrieverState) (fs : FileSys JVal),
      (strContains "SELECT *" (pyUpper (query.getD "")) = false
        ∨ strContains "ORDER BY" (query.getD "") = false
        ∨ erc = none
        ∨ (∃ n, erc = some n ∧ n < 0)
        ∨ (∃ n, erc = some n ∧ 1000 < n)) →
      ∃ r, qb_call_tool http qkey cacheKey connected query erc fuel st fs =
          some (r, 0)
        ∧ r.status = some "error" ∧ r.error_type = some "ValueError" := by
  intro http qkey cacheKey connected query erc fuel st fs h
  cases hv : is_query_valid query erc with
  | ok b =>
    obtain ⟨hc1, hc2, n, hn, hlow, hhigh⟩ :=
      is_query_valid_ok_shape query erc b hv
    rcases h with h | h | h | ⟨m2, hm2, hneg⟩ | ⟨m2, hm2, hbig⟩
    · rw [hc1] at h; exact absurd h (by simp)
    · rw [hc2] at h; exact absurd h (by simp)
    · rw [h] at hn; exact absurd hn (by simp)
    · rw [hn] at hm2
      have : n = m2 := Option.some.inj hm2
      omega
    · rw [hn] at hm2
      have : n = m2 := Option.some.inj hm2
      omega
  | error e =>
    obtain ⟨m, hm⟩ := is_query_valid_error_shape query erc e hv
    subst hm
    refine ⟨ToolCallResult.error "qb_user_data_retriever" "ValueError" m
      none, ?_, rfl, rfl⟩
    simp [qb_call_tool, hv, PyExn.typeName, PyExn.message]

/-- C8 witness: a query with SELECT * but no ORDER BY clause is rejected
with a ValueError error result and zero GETs. -/
theorem qb_validation_witness :
    ∃ r, qb_call_tool (fun _ => .error (.err "X" "x")) "Invoice" "ck" true
        (some "SELECT * FROM Invoice") (some 10) 3 (retrieverInit none)
        ⟨[]⟩ = some (r, 0)
      ∧ r.status = some "error" ∧ r.error_type = some "ValueError" :=
  qb_validation_rejects_before_dispatch (fun _ => .error (.err "X" "x"))
    "Invoice" "ck" true (some "SELECT * FROM Invoice") (some 10) 3
    (retrieverInit none) ⟨[]⟩ (Or.inr (Or.inl (by decide)))

theorem set_start_self (st : HTTPRetrieverState) :
    ({ st with start_pos := st.start_pos } : HTTPRetrieverState) = st := by
  cases st
  rfl

theorem retrieve_modelApi_http429 (http : Nat → Except PyExn JVal)
    (qkey cacheKey : String) (fuel : Nat) (st : HTTPRetrieverState)
    (fs : FileSys JVal) (m : String)
    (hsave : st.save_file_path = none)
    (hh : http st.start_pos = .error (.httpError 429 m)) :
    retrieve (modelApi http qkey) true cacheKey (fuel + 1) st fs =
      .raised (.httpError 429 m) 1 := by
  have htc : try_cache cacheKey st fs = (none, st) := by
    simp [try_cache, resolvePath, hsave, state_save_eta st hsave]
  have hloop : callApiLoop (modelApi http qkey) st.page_size (fuel + 1)
      st.start_pos [] 0 = .raised (.httpError 429 m) 1 := by
    simp [callApiLoop, modelApi, hh]
  simp only [retrieve, htc]
  rw [if_neg (show ¬ (true = false) by simp)]
  rw [hloop]

theorem retrieve_modelApi_empty_qr (http : Nat → Except PyExn JVal)
    (qkey cacheKey : String) (fuel : Nat) (st : HTTPRetrieverState)
    (fs : FileSys JVal) (fields : List (String × JVal))
    (hsave : st.save_file_path = none) (hps : 0 < st.page_size)
    (hh : http st.start_pos = .ok (.obj fields))
    (hqr : alookup fields "QueryResponse" = some (.obj [])) :
    retrieve (modelApi http qkey) true cacheKey (fuel + 1) st fs =
      .ok ⟨[JVal.obj fields], { st with start_pos := st.start_pos },
        fs, 1⟩ := by
  have htc : try_cache cacheKey st fs = (none, st) := by
    simp [try_cache, resolvePath, hsave, state_save_eta st hsave]
  have hqc : queryItemCount (JVal.obj fields) qkey = 0 := by
    simp [queryItemCount, hqr, alookup]
  have hloop : callApiLoop (modelApi http qkey) st.page_size (fuel + 1)
      st.start_pos [] 0 = .ok ([JVal.obj fields], st.start_pos, 1) := by
    simp only [callApiLoop, modelApi, hh, hqc]
    rw [if_pos hps]
    rfl
  have hcw : cacheWrite cacheKey
      ({ st with start_pos := st.start_pos }) fs [JVal.obj fields] =
      (({ st with start_pos := st.start_pos } : HTTPRetrieverState),
        fs) := by
    simp [cacheWrite, resolvePath, hsave]
  simp only [retrieve, htc]
  rw [if_neg (show ¬ (true = false) by simp)]
  rw [hloop]
  dsimp only
  rw [hcw]

/-- C4: at both call_tool boundaries — the model retriever and the QB
user-data retriever — an HTTP 429 from the upstream GET yields an error
result with status_code 429 and error type HTTPError; a structurally
valid page with an empty QueryResponse yields a NoData error result after
exactly one GET (no second request); and every modelled exception raised
inside the try block — by query validation or by retrieve — is converted
into a typed error envelope instead of propagating, so call_tool always
returns a result whenever the pagination loop terminates. -/
theorem call_tool_error_classification :
    (∀ (http : Nat → Except PyExn JVal) (qkey cacheKey : String)
      (fuel : Nat) (st : HTTPRetrieverState) (fs : FileSys JVal)
      (m : String),
      st.save_file_path = none →
      http st.start_pos = .error (.httpError 429 m) →
      model_call_tool http qkey cacheKey true (fuel + 1) st fs =
        some (ToolCallResult.error "qb_http_retriever" "HTTPError" m
          (some 429), 1))
    ∧ (∀ (http : Nat → Except PyExn JVal) (qkey cacheKey : String)
      (fuel : Nat) (st : HTTPRetrieverState) (fs : FileSys JVal)
      (fields : List (String × JVal)),
      st.save_file_path = none →
      0 < st.page_size →
      http st.start_pos = .ok (.obj fields) →
      alookup fields "QueryResponse" = some (.obj []) →
      model_call_tool http qkey cacheKey true (fuel + 1) st fs =
        some (ToolCallResult.error "qb_http_retriever" "NoData"
          "No data found" none, 1))
    ∧ (∀ (http : Nat → Except PyExn JVal) (qkey cacheKey : String)
      (connected : Bool) (fuel : Nat) (st : HTTPRetrieverState)
      (fs : FileSys JVal) (e : PyExn) (calls : Nat),
      retrieve (modelApi http qkey) connected cacheKey fuel st fs =
        .raised e calls →
      model_call_tool http qkey cacheKey connected fuel st fs =
        some (ToolCallResult.error "qb_http_retriever" e.typeName e.message
          (match e with | .httpError s _ => some s | .err _ _ => none),
          calls))
    ∧ (∀ (http : Nat → Except PyExn JVal) (qkey cacheKey : String)
      (connected : Bool) (fuel : Nat) (st : HTTPRetrieverState)
      (fs : FileSys JVal),
      retrieve (modelApi http qkey) connected cacheKey fuel st fs ≠
        .nofuel →
      ∃ r calls, model_call_tool http qkey cacheKey connected fuel st fs =
        some (r, calls))
    ∧ (∀ (http : Nat → Except PyExn JVal) (qkey cacheKey : String)
      (query : Option String) (erc : Option Int) (b : Bool) (fuel : Nat)
      (st : HTTPRetrieverState) (fs : FileSys JVal) (m : String),
      is_query_valid query erc = .ok b →
      st.save_file_path = none →
      http st.start_pos = .error (.httpError 429 m) →
      qb_call_tool http qkey cacheKey true query erc (fuel + 1) st fs =
        some (ToolCallResult.error "qb_user_data_retriever" "HTTPError" m
          (some 429), 1))
    ∧ (∀ (http : Nat → Except PyExn JVal) (qkey cacheKey : String)
      (query : Option String) (erc : Option Int) (b : Bool) (fuel : Nat)
      (st : HTTPRetrieverState) (fs : FileSys JVal)
      (fields : List (String × JVal)),
      is_query_valid query erc = .ok b →
      st.save_file_path = none →
      0 < st.page_size →
      http st.start_pos = .ok (.obj fields) →
      alookup fields "QueryResponse" = some (.obj []) →
      qb_call_tool http qkey cacheKey true query erc (fuel + 1) st fs =
        some (ToolCallResult.error "qb_user_data_retriever" "NoData"
          "No data found" none, 1))
    ∧ (∀ (http : Nat → Except PyExn JVal) (qkey cacheKey : String)
      (connected : Bool) (query : Option String) (erc : Option Int)
      (b : Bool) (fuel : Nat) (st : HTTPRetrieverState)
      (fs : FileSys JVal) (e : PyExn) (calls : Nat),
      is_query_valid query erc = .ok b →
      retrieve (modelApi http qkey) connected cacheKey fuel st fs =
        .raised e calls →
      qb_call_tool http qkey cacheKey connected query erc fuel st fs =
        some (ToolCallResult.error "qb_user_data_retriever" e.typeName
          e.message
          (match e with | .httpError s _ => some s | .err _ _ => none),
          calls))
    ∧ (∀ (http : Nat → Except PyExn JVal) (qkey cacheKey : String)
      (connected : Bool) (query : Option String) (erc : Option Int)
      (fuel : Nat) (st : HTTPRetrieverState) (fs : FileSys JVal)
      (e : PyExn),
      is_query_valid query erc = .error e →
      ∃ r, qb_call_tool http qkey cacheKey connected query erc fuel st fs =
          some (r, 0)
        ∧ r.status = some "error" ∧ r.error_type = some e.typeName)
    ∧ (∀ (http : Nat → Except PyExn JVal) (qkey cacheKey : String)
      (connected : Bool) (query : Option String) (erc : Option Int)
      (b : Bool) (fuel : Nat) (st : HTTPRetrieverState)
      (fs : FileSys JVal),
      is_query_valid query erc = .ok b →
      retrieve (modelApi http qkey) connected cacheKey fuel st fs ≠
        .nofuel →
      ∃ r calls,
        qb_call_tool http qkey cacheKey connected query erc fuel st fs =
          some (r, calls)) := by
  refine ⟨?_, ?_, ?_, ?_, ?_, ?_, ?_, ?_, ?_⟩
  · intro http qkey cacheKey fuel st fs m hsave hh
    simp only [model_call_tool,
      retrieve_modelApi_http429 http qkey cacheKey fuel st fs m hsave hh]
  · intro http qkey cacheKey fuel st fs fields hsave hps hh hqr
    have hqs : qrSize (JVal.obj fields) = 0 := by
      simp [qrSize, hqr]
    simp only [model_call_tool, retrieve_modelApi_empty_qr http qkey
      cacheKey fuel st fs fields hsave hps hh hqr]
    rw [if_pos hqs]
  · intro http qkey cacheKey connected fuel st fs e calls hret
    cases e with
    | httpError s m => simp only [model_call_tool, hret]; rfl
    | err n m => simp only [model_call_tool, hret]; rfl
  · intro http qkey cacheKey connected fuel st fs h
    cases hret : retrieve (modelApi http qkey) connected cacheKey fuel st
        fs with
    | nofuel => exact absurd hret h
    | raised e calls =>
      cases e with
      | httpError s m =>
        exact ⟨_, _, by simp only [model_call_tool, hret]; rfl⟩
      | err n m =>
        exact ⟨_, _, by simp only [model_call_tool, hret]; rfl⟩
    | ok out =>
      rcases hresp : out.responses with _ | ⟨first, rest⟩
      · refine ⟨ToolCallResult.error "qb_http_retriever" "NoData"
          "No data found" none, out.netCalls, ?_⟩
        simp only [model_call_tool, hret, hresp]
      · by_cases hq : qrSize first = 0
        · refine ⟨ToolCallResult.error "qb_http_retriever" "NoData"
            "No data found" none, out.netCalls, ?_⟩
          simp only [model_call_tool, hret, hresp]
          rw [if_pos hq]
        · refine ⟨⟨some "success", some "qb_http_retriever", none, none,
            none, some (cacheKey ++ ".jsonl"), none,
            some (JVal.obj [("description",
              JVal.str ("Did " ++ toString (first :: rest).length
                ++ " api calls within tool call. Sample result shown below.")),
              ("sample", first)])⟩, out.netCalls, ?_⟩
          simp only [model_call_tool, hret, hresp]
          rw [if_neg hq]
          rfl
  · intro http qkey cacheKey query erc b fuel st fs m hv hsave hh
    simp only [qb_call_tool, hv,
      retrieve_modelApi_http429 http qkey cacheKey fuel st fs m hsave hh]
  · intro http qkey cacheKey query erc b fuel st fs fields hv hsave hps
      hh hqr
    have hqs : qrSize (JVal.obj fields) = 0 := by
      simp [qrSize, hqr]
    simp only [qb_call_tool, hv, retrieve_modelApi_empty_qr http qkey
      cacheKey fuel st fs fields hsave hps hh hqr]
    rw [if_pos hqs]
  · intro http qkey cacheKey connected query erc b fuel st fs e calls hv
      hret
    cases e with
    | httpError s m => simp only [qb_call_tool, hv, hret]; rfl
    | err n m => simp only [qb_call_tool, hv, hret]; rfl
  · intro http qkey cacheKey connected query erc fuel st fs e hv
    refine ⟨ToolCallResult.error "qb_user_data_retriever" e.typeName
      e.message none, ?_, rfl, rfl⟩
    simp only [qb_call_tool, hv]
  · intro http qkey cacheKey connected query erc b fuel st fs hv h
    cases hret : retrieve (modelApi http qkey) connected cacheKey fuel st
        fs with
    | nofuel => exact absurd hret h
    | raised e calls =>
      cases e with
      | httpError s m =>
        exact ⟨_, _, by simp only [qb_call_tool, hv, hret]; rfl⟩
      | err n m =>
        exact ⟨_, _, by simp only [qb_call_tool, hv, hret]; rfl⟩
    | ok out =>
      rcases hresp : out.responses with _ | ⟨first, rest⟩
      · refine ⟨ToolCallResult.error "qb_user_data_retriever" "NoData"
          "No data found" none, out.netCalls, ?_⟩
        simp only [qb_call_tool, hv, hret, hresp]
      · by_cases hq : qrSize first = 0
        · refine ⟨ToolCallResult.error "qb_user_data_retriever" "NoData"
            "No data found" none, out.netCalls, ?_⟩
          simp only [qb_call_tool, hv, hret, hresp]
          rw [if_pos hq]
        · refine ⟨⟨some "success", some "qb_user_data_retriever", none,
            none, none, some (cacheKey ++ ".jsonl"),
            some (JVal.obj [("description",
              JVal.str ("Did " ++ toString (first :: rest).length
                ++ " api calls within tool call. Data was stored in "
                ++ optStrPy out.state.save_file_path ++ "."))]),
            none⟩, out.netCalls, ?_⟩
          simp only [qb_call_tool, hv, hret, hresp]
          rw [if_neg hq]
          rfl

/-- C4 witness: for both retrievers, a 429-raising source yields the
HTTPError envelope with status 429, and a page whose QueryResponse is
empty yields the NoData envelope after exactly one GET. -/
theorem call_tool_error_classification_witness :
    model_call_tool (fun _ => .error (.httpError 429 "429 Client Error"))
        "Customer" "ck" true 4 (retrieverInit none) ⟨[]⟩ =
      some (ToolCallResult.error "qb_http_retriever" "HTTPError"
        "429 Client Error" (some 429), 1)
    ∧ model_call_tool (fun _ => .ok (.obj [("QueryResponse", .obj [])]))
        "Customer" "ck2" true 4 (retrieverInit none) ⟨[]⟩ =
      some (ToolCallResult.error "qb_http_retriever" "NoData"
        "No data found" none, 1)
    ∧ qb_call_tool (fun _ => .error (.httpError 429 "429 Client Error"))
        "Customer" "ck3" true (some "SELECT * FROM Customer ORDER BY Id")
        (some 10) 4 (retrieverInit none) ⟨[]⟩ =
      some (ToolCallResult.error "qb_user_data_retriever" "HTTPError"
        "429 Client Error" (some 429), 1)
    ∧ qb_call_tool (fun _ => .ok (.obj [("QueryResponse", .obj [])]))
        "Customer" "ck4" true (some "SELECT * FROM Customer ORDER BY Id")
        (some 10) 4 (retrieverInit none) ⟨[]⟩ =
      some (ToolCallResult.error "qb_user_data_retriever" "NoData"
        "No data found" none, 1) :=
  ⟨call_tool_error_classification.1
      (fun _ => .error (.httpError 429 "429 Client Error")) "Customer" "ck"
      3 (retrieverInit none) ⟨[]⟩ "429 Client Error" rfl rfl,
   call_tool_error_classification.2.1
      (fun _ => .ok (.obj [("QueryResponse", .obj [])])) "Customer" "ck2"
      3 (retrieverInit none) ⟨[]⟩ [("QueryResponse", .obj [])] rfl
      (by decide) rfl rfl,
   call_tool_error_classification.2.2.2.2.1
      (fun _ => .error (.httpError 429 "429 Client Error")) "Customer"
      "ck3" (some "SELECT * FROM Customer ORDER BY Id") (some 10) true 3
      (retrieverInit none) ⟨[]⟩ "429 Client Error" rfl rfl rfl,
   call_tool_error_classification.2.2.2.2.2.1
      (fun _ => .ok (.obj [("QueryResponse", .obj [])])) "Customer" "ck4"
      (some "SELECT * FROM Customer ORDER BY Id") (some 10) true 3
      (retrieverInit none) ⟨[]⟩ [("QueryResponse", .obj [])] rfl
      rfl (by decide) rfl rfl⟩

theorem slotStep_intents (st : IntentClassifierOutputState)
    (p : String × JVal) : (slotStep st p).intents = st.intents := by
  unfold slotStep
  cases search_for_slot p.1 <;> rfl

theorem slotFold_intents :
    ∀ (fields : List (String × JVal)) (st : IntentClassifierOutputState),
      (fields.foldl slotStep st).intents = st.intents := by
  intro fields
  induction fields with
  | nil => intro st; rfl
  | cons p rest ih =>
    intro st
    rw [List.foldl_cons, ih, slotStep_intents]

theorem intents_map_nil (o : Option (List IntentName)) :
    o.map (· ++ ([] : List IntentName)) = o := by
  cases o <;> simp

theorem processPair_benign (st : IntentClassifierOutputState)
    (p : String × JVal) (hb : benignPair p = true) :
    ∃ st2, processPair st p.1 p.2 = .ok st2 ∧
      st2.intents = st.intents.map (· ++ (intentOfPair p).toList) := by
  rcases p with ⟨k, v⟩
  by_cases h1 : strContains "intent" k
  · cases v with
    | str s =>
      cases h2 : search_for_intent s with
      | some known =>
        refine ⟨{ st with intents := st.intents.map (· ++ [known]) },
          by simp [processPair, h1, h2, JVal.isNull], ?_⟩
        simp [intentOfPair, h1, h2]
      | none =>
        refine ⟨st, by simp [processPair, h1, h2, JVal.isNull], ?_⟩
        simp [intentOfPair, h1, h2, intents_map_nil]
    | null => exact absurd hb (by simp [benignPair, h1])
    | num n => exact absurd hb (by simp [benignPair, h1])
    | bool b => exact absurd hb (by simp [benignPair, h1])
    | arr l => exact absurd hb (by simp [benignPair, h1])
    | obj fs => exact absurd hb (by simp [benignPair, h1])
  · by_cases h2 : strContains "dialog_act" k
    · cases v with
      | str s =>
        cases h3 : search_for_dialog_act s with
        | some known =>
          refine ⟨{ st with dialog_acts := st.dialog_acts ++ [known] },
            by simp [processPair, h1, h2, h3, JVal.isNull], ?_⟩
          simp [intentOfPair, h1, intents_map_nil]
        | none =>
          refine ⟨st, by simp [processPair, h1, h2, h3, JVal.isNull], ?_⟩
          simp [intentOfPair, h1, intents_map_nil]
      | null => exact absurd hb (by simp [benignPair, h1, h2])
      | num n => exact absurd hb (by simp [benignPair, h1, h2])
      | bool b => exact absurd hb (by simp [benignPair, h1, h2])
      | arr l => exact absurd hb (by simp [benignPair, h1, h2])
      | obj fs => exact absurd hb (by simp [benignPair, h1, h2])
    · cases v with
      | obj fields =>
        refine ⟨fields.foldl slotStep st,
          by simp [processPair, h1, h2], ?_⟩
        rw [slotFold_intents]
        simp [intentOfPair, h1, intents_map_nil]
      | null => exact absurd hb (by simp [benignPair, h1, h2])
      | num n => exact absurd hb (by simp [benignPair, h1, h2])
      | bool b => exact absurd hb (by simp [benignPair, h1, h2])
      | arr l => exact absurd hb (by simp [benignPair, h1, h2])
      | str s => exact absurd hb (by simp [benignPair, h1, h2])

theorem knownIntentsOf_cons (p : String × JVal)
    (rest : List (String × JVal)) :
    knownIntentsOf (p :: rest) =
      (intentOfPair p).toList ++ knownIntentsOf rest := by
  cases h : intentOfPair p <;>
    simp [knownIntentsOf, List.filterMap_cons, h]

theorem processObj_benign :
    ∀ (fields : List (String × JVal)) (st : IntentClassifierOutputState),
      (∀ p ∈ fields, benignPair p = true) →
      ∃ st2, processObj st fields = .ok st2 ∧
        st2.intents = st.intents.map (· ++ knownIntentsOf fields) := by
  intro fields
  induction fields with
  | nil =>
    intro st _
    exact ⟨st, rfl, by simp [knownIntentsOf, intents_map_nil]⟩
  | cons p rest ih =>
    intro st hb
    obtain ⟨st2, hp, hint⟩ := processPair_benign st p (hb p (by simp))
    obtain ⟨st3, hrest, hint3⟩ := ih st2
      (fun q hq => hb q (by simp [hq]))
    rcases p with ⟨k, v⟩
    refine ⟨st3, ?_, ?_⟩
    · simp only [processObj, hp, hrest]
    · rw [hint3, hint, knownIntentsOf_cons]
      cases st.intents with
      | none => rfl
      | some l => simp

theorem knownIntentsOf_no_intent_keys (l : List (String × JVal))
    (hl : ∀ p ∈ l, strContains "intent" p.1 = false) :
    knownIntentsOf l = [] := by
  induction l with
  | nil => rfl
  | cons q rest ih =>
    rw [knownIntentsOf_cons]
    rw [show intentOfPair q = none from by
      simp [intentOfPair, hl q (List.mem_cons_self q rest)]]
    simp [ih (fun p hp => hl p (List.mem_cons_of_mem q hp))]

/-- C6: a valid single-line classifier response whose intent key carries a
known intent name (resolved case-insensitively against the catalog) parses
without raising and the output intents list holds exactly that one intent;
when the intent name is unknown it is silently dropped and the intents
list is empty, still without raising. -/
theorem classifier_known_intent_once_unknown_dropped :
    ∀ (pre post : List (String × JVal)) (k s : String),
      (∀ p ∈ pre, benignPair p = true) →
      (∀ p ∈ post, benignPair p = true) →
      (∀ p ∈ pre, strContains "intent" p.1 = false) →
      (∀ p ∈ post, strContains "intent" p.1 = false) →
      strContains "intent" k = true →
      ((∀ i, search_for_intent s = some i →
        ∃ st, set_success_lines classifierParserInit
            [pre ++ (k, JVal.str s) :: post] = .ok st ∧
          st.intents = some [i])
      ∧ (search_for_intent s = none →
        ∃ st, set_success_lines classifierParserInit
            [pre ++ (k, JVal.str s) :: post] = .ok st ∧
          st.intents = some [])) := by
  intro pre post k s hbpre hbpost hipre hipost hk
  have hline : ∀ p ∈ pre ++ (k, JVal.str s) :: post,
      benignPair p = true := by
    intro p hp
    rcases List.mem_append.mp hp with h | h
    · exact hbpre p h
    · rcases List.mem_cons.mp h with h2 | h2
      · subst h2; simp [benignPair, hk]
      · exact hbpost p h2
  have hknown : knownIntentsOf (pre ++ (k, JVal.str s) :: post) =
      (search_for_intent s).toList := by
    have hsplit : knownIntentsOf (pre ++ (k, JVal.str s) :: post) =
        knownIntentsOf pre ++ knownIntentsOf ((k, JVal.str s) :: post) := by
      simp [knownIntentsOf, List.filterMap_append]
    rw [hsplit, knownIntentsOf_no_intent_keys pre hipre,
      knownIntentsOf_cons, knownIntentsOf_no_intent_keys post hipost]
    simp [intentOfPair, hk]
  obtain ⟨st2, hobj, hint⟩ :=
    processObj_benign (pre ++ (k, JVal.str s) :: post)
      classifierParserInit hline
  constructor
  · intro i hi
    refine ⟨st2, by simp [set_success_lines, hobj], ?_⟩
    rw [hint, hknown, hi]
    rfl
  · intro hi
    refine ⟨st2, by simp [set_success_lines, hobj], ?_⟩
    rw [hint, hknown, hi]
    rfl

/-- C6 witness: a line carrying dialog act, a catalog intent in mixed case
and an entity map parses to exactly that intent; a line carrying an
unknown intent name parses without raising to an empty intents list. -/
theorem classifier_intent_witness :
    (∃ st, set_success_lines classifierParserInit
        [[("dialog_act1", JVal.str "INFORM"),
          ("intent1", JVal.str "Search_Hotels"),
          ("entities1", JVal.obj [("location", JVal.str "paris")])]] =
        .ok st ∧ st.intents = some [IntentName.SEARCH_HOTELS])
    ∧ (∃ st, set_success_lines classifierParserInit
        [[("intent1", JVal.str "fly_to_moon")]] = .ok st ∧
        st.intents = some []) :=
  ⟨(classifier_known_intent_once_unknown_dropped
      [("dialog_act1", JVal.str "INFORM")]
      [("entities1", JVal.obj [("location", JVal.str "paris")])]
      "intent1" "Search_Hotels"
      (by decide) (by decide) (by decide) (by decide) (by decide)).1
      IntentName.SEARCH_HOTELS (by decide),
   (classifier_known_intent_once_unknown_dropped [] []
      "intent1" "fly_to_moon"
      (by decide) (by decide) (by decide) (by decide) (by decide)).2
      (by decide)⟩

end CbCore
